import Mathlib

/-!
Verification development for the `wrongo` HTTP façade over MongoDB
(`src/index.ts`).  The transaction endpoint (`POST /v0/transaction`) and the
single-operation endpoint `POST /v0/update-one` are embedded shallowly:

* JSON values are modelled by `Json` (documents are objects whose entries may
  themselves be flat objects or arrays — the depth needed by every request
  shape in the repository);
* JavaScript object-literal spread (`{...a, k: v, ...b}`) is modelled as list
  concatenation with *last occurrence wins* lookup (`jsGet`);
* the MongoDB driver (an external collaborator: the spec treats the store as
  an opaque service with standard semantics) is modelled by the pure
  functions `mongoFindOneAndUpdate`, `mongoInsertOne`, `mongoFindOne`,
  `mongoDeleteOne` over a `DB` state; `session.withTransaction` commit/abort
  semantics appear in `transactionHandler`: the durable state after a failed
  body is the pre-transaction state;
* Zod schema validation (`validateWithZod` with `TransactionSchema`,
  `UpdateOneSchema`) is embedded by `zodParseOps` / `zodUpdateOne`; note that
  Zod `z.any()` accepts an absent key, so a field declared `z.any()` is not
  actually required by schema validation;
* the handlers return the new durable store state, the HTTP response, and the
  trace of store interactions (`StoreEvent`), so "no store access occurred"
  is expressible as an empty trace.
-/

namespace Wrongo

/-- Primitive JSON scalar values (JS numbers restricted to integers; no claim
depends on non-integral numerics). -/
inductive JVal where
  | null
  | bool (b : Bool)
  | num (n : Int)
  | str (s : String)
  deriving DecidableEq, Repr

/-- An entry of a JSON object: a scalar, a (flat) nested object, or an array
of scalars.  This covers every document/filter/update/options shape used by
the repository's request bodies. -/
inductive JEntry where
  | prim (v : JVal)
  | nestedObj (fields : List (String × JVal))
  | nestedArr (xs : List JVal)
  deriving DecidableEq, Repr

/-- A JSON value as it appears in a request body field. -/
inductive Json where
  | null
  | bool (b : Bool)
  | num (n : Int)
  | str (s : String)
  | arr (xs : List JVal)
  | obj (fields : List (String × JEntry))
  deriving DecidableEq, Repr

/-- JavaScript truthiness of an optional JSON value (`undefined`, `null`,
`false`, `0` and `""` are falsy; objects and arrays are always truthy).
This is the semantics of the `!operation.filter`-style checks in the
per-operation validation loop of `POST /v0/transaction`. -/
def truthy : Option Json → Bool
  | none => false
  | some .null => false
  | some (.bool b) => b
  | some (.num n) => !(n == 0)
  | some (.str s) => !(s == "")
  | some (.arr _) => true
  | some (.obj _) => true

/-- Lookup in a JS-object field list, *last* occurrence winning — the
semantics of reading a key from an object built by literal/spread syntax,
where later assignments override earlier ones. -/
def jsGet {α : Type} (m : List (String × α)) (k : String) : Option α :=
  m.foldl (fun acc p => if p.1 = k then some p.2 else acc) none

/-- The fields of a JSON object; a non-object has none.  Used where the code
spreads a Zod-`any` value that is an object in every intended use. -/
def optsFields : Json → List (String × JEntry)
  | .obj fields => fields
  | _ => []

/-- A value in a driver options map: either plain JSON (client-supplied) or
the orchestrator's session handle (identified by a numeric tag). -/
inductive OptVal where
  | json (e : JEntry)
  | sess (sid : Nat)
  deriving DecidableEq, Repr

/-- Driver-level options object. -/
abbrev EffOpts := List (String × OptVal)

/-- Client-supplied option fields, injected into the driver options map. -/
def toOptVals (fields : List (String × JEntry)) : EffOpts :=
  fields.map (fun p => (p.1, OptVal.json p.2))

/-- `{ ...operation.options, session, returnDocument: 'after' }` — the
options object built for `findOneAndUpdate` inside the transaction loop. -/
def effFOAUOpts (clientOpts : EffOpts) (sid : Nat) : EffOpts :=
  clientOpts ++
    [("session", OptVal.sess sid),
     ("returnDocument", OptVal.json (JEntry.prim (JVal.str "after")))]

/-- `{ ...operation.options, session }` — the options object built for
`insertOne` inside the transaction loop. -/
def effInsertOpts (clientOpts : EffOpts) (sid : Nat) : EffOpts :=
  clientOpts ++ [("session", OptVal.sess sid)]

/-- `{ ...operation.options, session }` — the options object built for
`deleteOne` inside the transaction loop. -/
def effDeleteOpts (clientOpts : EffOpts) (sid : Nat) : EffOpts :=
  clientOpts ++ [("session", OptVal.sess sid)]

/-- `{ ...options, returnDocument: 'after' }` — the options object built by
the `POST /v0/update-one` handler (no session: not a transaction). -/
def effUpdateOneOpts (clientOpts : EffOpts) : EffOpts :=
  clientOpts ++ [("returnDocument", OptVal.json (JEntry.prim (JVal.str "after")))]

/-- The session carried by a driver options object, if any. -/
def sessOf (opts : EffOpts) : Option Nat :=
  match jsGet opts "session" with
  | some (OptVal.sess i) => some i
  | _ => none

/-- Whether the driver options request the post-mutation image. -/
def returnDocAfter (opts : EffOpts) : Bool :=
  jsGet opts "returnDocument" == some (OptVal.json (JEntry.prim (JVal.str "after")))

/-- A document at rest in the store: a generated identifier plus its fields
(the modelled counterpart of `_id` plus the document body). -/
structure StoredDoc where
  id : Nat
  fields : List (String × JEntry)
  deriving DecidableEq, Repr

/-- The store state: named collections of documents, plus the next identifier
the store will generate. -/
structure DB where
  colls : List (String × List StoredDoc)
  nextId : Nat
  deriving DecidableEq, Repr

/-- The documents of a collection (a collection never touched is empty). -/
def getColl (db : DB) (name : String) : List StoredDoc :=
  (jsGet db.colls name).getD []

/-- Replace the contents of one collection. -/
def setColl (db : DB) (name : String) (docs : List StoredDoc) : DB :=
  { db with
    colls :=
      if db.colls.any (fun p => p.1 = name) then
        db.colls.map (fun p => if p.1 = name then (name, docs) else p)
      else
        db.colls ++ [(name, docs)] }

/-- Well-formedness of a store state: every stored identifier is older than
the next one to be generated (so generated identifiers are fresh). -/
def DB.wf (db : DB) : Prop :=
  ∀ c ∈ db.colls, ∀ d ∈ c.2, d.id < db.nextId

instance (db : DB) : Decidable db.wf := by
  unfold DB.wf; infer_instance

/-- The JSON rendering of a stored document, `_id` first — what the driver
hands back for a read. -/
def renderDoc (d : StoredDoc) : Json :=
  Json.obj (("_id", JEntry.prim (JVal.num (Int.ofNat d.id))) :: d.fields)

/-- Whether a document satisfies an (object) filter: every filter field must
equal the corresponding document field, `_id` comparing against the
generated identifier. -/
def matchFilterFields (ffields : List (String × JEntry)) (d : StoredDoc) : Bool :=
  ffields.all fun p =>
    if p.1 = "_id" then
      decide (p.2 = JEntry.prim (JVal.num (Int.ofNat d.id)))
    else
      decide (jsGet d.fields p.1 = some p.2)

/-- The first document of a collection matching a filter; a non-object filter
is a driver error. -/
def firstMatch (f : Json) (docs : List StoredDoc) : Except String (Option StoredDoc) :=
  match f with
  | .obj ffields => .ok (docs.find? (matchFilterFields ffields))
  | _ => .error "Query filter must be a plain object"

/-- Replace the document with the given identifier (in place). -/
def replaceDocById (docs : List StoredDoc) (id : Nat) (d' : StoredDoc) : List StoredDoc :=
  docs.map (fun d => if d.id = id then d' else d)

/-- Remove the first document with the given identifier. -/
def removeById (docs : List StoredDoc) (id : Nat) : List StoredDoc :=
  docs.eraseP (fun d => d.id == id)

/-- Set one field of a document body (in place if present, appended if new). -/
def setField (fields : List (String × JEntry)) (k : String) (v : JEntry) :
    List (String × JEntry) :=
  if fields.any (fun p => p.1 = k) then
    fields.map (fun p => if p.1 = k then (k, v) else p)
  else
    fields ++ [(k, v)]

/-- Whether an update-document key is an atomic-operator key (`$`-prefixed),
as the driver's atomic-operator check inspects it. -/
def startsWithDollar (s : String) : Bool :=
  match s.data with
  | [] => false
  | c :: _ => c == '$'

/-- Apply one `$inc` assignment; incrementing a non-numeric existing field or
by a non-numeric amount is a store error. -/
def incField (fields : List (String × JEntry)) (k : String) (v : JVal) :
    Except String (List (String × JEntry)) :=
  match v with
  | .num n =>
    match jsGet fields k with
    | none => .ok (setField fields k (JEntry.prim (JVal.num n)))
    | some (JEntry.prim (JVal.num m)) =>
        .ok (setField fields k (JEntry.prim (JVal.num (m + n))))
    | some _ => .error "Cannot apply $inc to a value of non-numeric type"
  | _ => .error "Modifiers require numeric amounts"

/-- Apply one update operator to a document body.  The modelled store
supports `$set` and `$inc`; any other operator is a store error (as an
unsupported operator is in the real store). -/
def applyUpdateOp (fields : List (String × JEntry)) (entry : String × JEntry) :
    Except String (List (String × JEntry)) :=
  match entry with
  | ("$set", JEntry.nestedObj assigns) =>
      .ok (assigns.foldl (fun fs a => setField fs a.1 (JEntry.prim a.2)) fields)
  | ("$inc", JEntry.nestedObj assigns) =>
      assigns.foldlM (fun fs a => incField fs a.1 a.2) fields
  | _ => .error "Unsupported update operator"

/-- Apply an update document to a stored document.  As in the driver's
`findOneAndUpdate`, the update must be a non-empty object all of whose
top-level keys are atomic operators; otherwise the call errors. -/
def applyUpdate (u : Json) (d : StoredDoc) : Except String StoredDoc :=
  match u with
  | .obj ufields =>
    if ufields.isEmpty || ufields.any (fun p => !startsWithDollar p.1) then
      .error "Update document requires atomic operators"
    else
      match ufields.foldlM applyUpdateOp d.fields with
      | .error e => .error e
      | .ok fs => .ok ⟨d.id, fs⟩
  | _ => .error "Update document requires atomic operators"

/-- Modelled driver `collection.findOneAndUpdate(filter, update, opts)`: find
the first match; with no match return `null` and leave the store unchanged;
with a match, apply the update and return the pre- or post-image according to
the `returnDocument` option.  An absent filter or update is a driver
argument error. -/
def mongoFindOneAndUpdate (db : DB) (coll : String) (filter update : Option Json)
    (opts : EffOpts) : Except String (DB × Option Json) :=
  match filter, update with
  | some f, some u =>
    match firstMatch f (getColl db coll) with
    | .error e => .error e
    | .ok none => .ok (db, none)
    | .ok (some d) =>
      match applyUpdate u d with
      | .error e => .error e
      | .ok d' =>
        .ok (setColl db coll (replaceDocById (getColl db coll) d.id d'),
             some (renderDoc (if returnDocAfter opts then d' else d)))
  | _, _ => .error "Filter and update documents are required"

/-- Modelled driver `collection.insertOne(document, opts)`: store the
document under a freshly generated identifier; a non-object document is a
driver error. -/
def mongoInsertOne (db : DB) (coll : String) (document : Option Json) :
    Except String (DB × Nat) :=
  match document with
  | some (.obj fields) =>
    let id := db.nextId
    let db' := setColl db coll (getColl db coll ++ [⟨id, fields⟩])
    .ok ({ db' with nextId := id + 1 }, id)
  | _ => .error "Document must be a valid object"

/-- Modelled driver `collection.findOne(filter, opts)`. -/
def mongoFindOne (db : DB) (coll : String) (filter : Json) :
    Except String (Option Json) :=
  match firstMatch filter (getColl db coll) with
  | .error e => .error e
  | .ok r => .ok (r.map renderDoc)

/-- Modelled driver `collection.deleteOne(filter, opts)`: remove the first
match and report how many documents (0 or 1) were deleted. -/
def mongoDeleteOne (db : DB) (coll : String) (filter : Option Json) :
    Except String (DB × Nat) :=
  match filter with
  | some f =>
    match firstMatch f (getColl db coll) with
    | .error e => .error e
    | .ok none => .ok (db, 0)
    | .ok (some d) => .ok (setColl db coll (removeById (getColl db coll) d.id), 1)
  | none => .error "Query filter must be a plain object"

/-- The closed operation-type enum of `TransactionOperationSchema`
(`z.enum(['findOneAndUpdate', 'insertOne', 'deleteOne'])`). -/
inductive OpType where
  | findOneAndUpdate
  | insertOne
  | deleteOne
  deriving DecidableEq, Repr

/-- The string tag of an operation type, as it appears on the wire. -/
def OpType.name : OpType → String
  | .findOneAndUpdate => "findOneAndUpdate"
  | .insertOne => "insertOne"
  | .deleteOne => "deleteOne"

/-- Zod enum parsing of the `type` field. -/
def parseOpType (s : String) : Option OpType :=
  if s = "findOneAndUpdate" then some OpType.findOneAndUpdate
  else if s = "insertOne" then some OpType.insertOne
  else if s = "deleteOne" then some OpType.deleteOne
  else none

/-- An operation descriptor as received on the wire, before Zod parsing:
`collection` a string, `type` an arbitrary string tag, the remaining fields
arbitrary JSON or absent. -/
structure RawOperation where
  type : String
  collection : String
  filter : Option Json := none
  document : Option Json := none
  update : Option Json := none
  options : Option Json := none
  deriving DecidableEq, Repr

/-- The body of a `POST /v0/transaction` request. -/
structure RawTxnRequest where
  operations : List RawOperation
  transactionOptions : Option Json := none
  deriving DecidableEq, Repr

/-- A descriptor after Zod parsing (`TransactionOperationSchema`): the type
tag resolved into the enum, `options` defaulted to `{}`. -/
structure TxnOperation where
  type : OpType
  collection : String
  filter : Option Json
  document : Option Json
  update : Option Json
  options : Json
  deriving DecidableEq, Repr

/-- Zod parse of a single descriptor: fails exactly when the type tag is
outside the enum; all other fields are `z.any()` and pass through. -/
def zodParseOp (op : RawOperation) : Option TxnOperation :=
  (parseOpType op.type).map fun t =>
    { type := t, collection := op.collection, filter := op.filter,
      document := op.document, update := op.update,
      options := op.options.getD (Json.obj []) }

/-- Zod parse of the descriptor list (all-or-nothing, as `safeParse` is). -/
def zodParseOps : List RawOperation → Option (List TxnOperation)
  | [] => some []
  | op :: rest =>
    match zodParseOp op, zodParseOps rest with
    | some t, some ts => some (t :: ts)
    | _, _ => none

/-- The Zod issue list: one path-tagged issue per descriptor whose type tag
is outside the enum (Zod reports every failing path). -/
def zodIssues : Nat → List RawOperation → List String
  | _, [] => []
  | i, op :: rest =>
    (if (parseOpType op.type).isNone then
      [s!"operations.{i}.type: Invalid enum value"]
     else []) ++ zodIssues (i + 1) rest

/-- An HTTP exception: status and message, as thrown by the handlers. -/
structure HErr where
  status : Nat
  message : String
  deriving DecidableEq, Repr

/-- The type-conditional required-field check for one descriptor, mirroring
one arm of the `switch` in the validation loop; `none` means the descriptor
passes. -/
def checkOperation (i : Nat) (op : TxnOperation) : Option HErr :=
  match op.type with
  | .findOneAndUpdate =>
    if !truthy op.filter || !truthy op.update then
      some ⟨400, s!"Operation {i}: findOneAndUpdate requires filter and update fields"⟩
    else none
  | .insertOne =>
    if !truthy op.document then
      some ⟨400, s!"Operation {i}: insertOne requires document field"⟩
    else none
  | .deleteOne =>
    if !truthy op.filter then
      some ⟨400, s!"Operation {i}: deleteOne requires filter field"⟩
    else none

/-- The indexed validation loop (`for (const [index, operation] of
operations.entries())`), which throws at the first failing descriptor. -/
def checkOperations : Nat → List TxnOperation → Option HErr
  | _, [] => none
  | i, op :: rest =>
    match checkOperation i op with
    | some e => some e
    | none => checkOperations (i + 1) rest

/-- The semantic validation performed after Zod parsing succeeded: the
empty-batch check, then the per-descriptor type-conditional loop. -/
def validatePostZod (req : RawTxnRequest) (ops : List TxnOperation) :
    Except HErr (List TxnOperation × Json) :=
  if ops.length = 0 then
    .error ⟨400, "At least one operation is required"⟩
  else
    match checkOperations 0 ops with
    | some e => .error e
    | none => .ok (ops, req.transactionOptions.getD (Json.obj []))

/-- Everything the transaction endpoint does before touching the store:
Zod schema validation, the empty-batch check, then the per-descriptor
type-conditional loop. -/
def validateTransactionRequest (req : RawTxnRequest) :
    Except HErr (List TxnOperation × Json) :=
  match zodParseOps req.operations with
  | none =>
    .error ⟨400, "Validation error: " ++
      String.intercalate ", " (zodIssues 0 req.operations)⟩
  | some ops => validatePostZod req ops

/-- One per-operation result record, as pushed onto `operationResults`. -/
inductive OpResult where
  | fOAUResult (collection : String) (data : Option Json)
  | insertOneResult (collection : String) (data : Option Json) (insertedId : Nat)
  | deleteOneResult (collection : String) (deletedCount : Nat)
  deriving DecidableEq, Repr

/-- The `type` tag echoed in a result record. -/
def OpResult.opType : OpResult → OpType
  | .fOAUResult _ _ => OpType.findOneAndUpdate
  | .insertOneResult _ _ _ => OpType.insertOne
  | .deleteOneResult _ _ => OpType.deleteOne

/-- The `collection` echoed in a result record. -/
def OpResult.collection : OpResult → String
  | .fOAUResult c _ => c
  | .insertOneResult c _ _ => c
  | .deleteOneResult c _ => c

/-- One store interaction, for the trace the handlers produce. -/
inductive StoreEvent where
  | sessionStart (sid : Nat)
  | txnStart (opts : List (String × JEntry))
  | fOAUCall (coll : String) (sid : Option Nat)
  | insertCall (coll : String) (sid : Option Nat)
  | findOneCall (coll : String) (sid : Option Nat)
  | deleteCall (coll : String) (sid : Option Nat)
  | commit
  | abort
  deriving DecidableEq, Repr

/-- Execute one descriptor inside the transaction body (one arm of the
`switch (operation.type)` in the `withTransaction` callback), producing the
store interactions attempted and either a store error or the updated
transaction state plus the result record. -/
def execOp (db : DB) (sid : Nat) (op : TxnOperation) :
    List StoreEvent × Except String (DB × OpResult) :=
  match op.type with
  | .findOneAndUpdate =>
    let opts := effFOAUOpts (toOptVals (optsFields op.options)) sid
    ([StoreEvent.fOAUCall op.collection (sessOf opts)],
      match mongoFindOneAndUpdate db op.collection op.filter op.update opts with
      | .error e => .error e
      | .ok (db', data) => .ok (db', OpResult.fOAUResult op.collection data))
  | .insertOne =>
    let opts := effInsertOpts (toOptVals (optsFields op.options)) sid
    match mongoInsertOne db op.collection op.document with
    | .error e => ([StoreEvent.insertCall op.collection (sessOf opts)], .error e)
    | .ok (db', id) =>
      let readFilter := Json.obj [("_id", JEntry.prim (JVal.num (Int.ofNat id)))]
      let readOpts : EffOpts := [("session", OptVal.sess sid)]
      ([StoreEvent.insertCall op.collection (sessOf opts),
        StoreEvent.findOneCall op.collection (sessOf readOpts)],
        match mongoFindOne db' op.collection readFilter with
        | .error e => .error e
        | .ok data => .ok (db', OpResult.insertOneResult op.collection data id))
  | .deleteOne =>
    let opts := effDeleteOpts (toOptVals (optsFields op.options)) sid
    ([StoreEvent.deleteCall op.collection (sessOf opts)],
      match mongoDeleteOne db op.collection op.filter with
      | .error e => .error e
      | .ok (db', n) => .ok (db', OpResult.deleteOneResult op.collection n))

/-- Execute the descriptor sequence strictly in input order inside the
single transaction context, accumulating one result per descriptor and
stopping at the first failure. -/
def execOps (db : DB) (sid : Nat) :
    List TxnOperation → List StoreEvent × Except String (DB × List OpResult)
  | [] => ([], .ok (db, []))
  | op :: rest =>
    match execOp db sid op with
    | (evs, .error e) => (evs, .error e)
    | (evs, .ok (db1, r)) =>
      match execOps db1 sid rest with
      | (evs2, .error e) => (evs ++ evs2, .error e)
      | (evs2, .ok (db2, rs)) => (evs ++ evs2, .ok (db2, r :: rs))

/-- `{ readPreference: 'primary', ...transactionOptions }` — the options
object handed to `session.withTransaction`. -/
def effTxnOpts (tf : List (String × JEntry)) : List (String × JEntry) :=
  [("readPreference", JEntry.prim (JVal.str "primary"))] ++ tf

/-- The JSON-level HTTP response of the transaction endpoint. -/
structure HttpResponse where
  status : Nat
  error : Option String
  data : Option (List OpResult)
  operationCount : Option Nat
  deriving DecidableEq, Repr

/-- The response produced by `app.onError` for an `HTTPException`. -/
def errResponse (e : HErr) : HttpResponse :=
  ⟨e.status, some e.message, none, none⟩

/-- The response produced by `app.onError` for a non-HTTP error (a store or
transaction failure): a single generic 500. -/
def storeErrorResponse : HttpResponse :=
  ⟨500, some "Internal server error", none, none⟩

/-- The `client.withSession(session.withTransaction(...))` block of the
transaction endpoint: run the body on the session; the durable state is the
pre-transaction state unless the whole body succeeded and committed, in
which case it is the body's final state and the full result list is
returned with the operation count. -/
def execPhase (db : DB) (sid : Nat) (ops : List TxnOperation) (topts : Json) :
    DB × HttpResponse × List StoreEvent :=
  let txnOpts := effTxnOpts (optsFields topts)
  match execOps db sid ops with
  | (evs, .error _) =>
    (db, storeErrorResponse,
      [StoreEvent.sessionStart sid, StoreEvent.txnStart txnOpts] ++ evs ++
        [StoreEvent.abort])
  | (evs, .ok (db', results)) =>
    (db', ⟨200, none, some results, some ops.length⟩,
      [StoreEvent.sessionStart sid, StoreEvent.txnStart txnOpts] ++ evs ++
        [StoreEvent.commit])

/-- The `POST /v0/transaction` handler: validation, then the session-scoped
transaction phase.  Returns the durable state, the response, and the
store-interaction trace. -/
def transactionHandler (db : DB) (sid : Nat) (req : RawTxnRequest) :
    DB × HttpResponse × List StoreEvent :=
  match validateTransactionRequest req with
  | .error e => (db, errResponse e, [])
  | .ok (ops, topts) => execPhase db sid ops topts

/-- The body of a `POST /v0/update-one` request. -/
structure RawUpdateOneRequest where
  collection : Option Json := none
  filter : Option Json := none
  update : Option Json := none
  options : Option Json := none
  deriving DecidableEq, Repr

/-- `UpdateOneSchema` after Zod parsing.  `filter` and `update` are
`z.any()` fields: Zod treats them as accepting `undefined`, so they remain
optional values here. -/
structure ParsedUpdateOne where
  collection : String
  filter : Option Json
  update : Option Json
  options : Json
  deriving DecidableEq, Repr

/-- Zod parse of `UpdateOneSchema`: `collection` must be a string;
`filter`/`update` are `z.any()` and accept anything *including an absent
key*; `options` is `z.any().default({})`. -/
def zodUpdateOne (req : RawUpdateOneRequest) : Except HErr ParsedUpdateOne :=
  match req.collection with
  | some (.str s) =>
    .ok ⟨s, req.filter, req.update, req.options.getD (Json.obj [])⟩
  | some _ => .error ⟨400, "Validation error: collection: Expected string"⟩
  | none => .error ⟨400, "Validation error: collection: Required"⟩

/-- The JSON-level HTTP response of `POST /v0/update-one` (`data` is the
driver's document-or-null result when present). -/
structure UpdateOneResponse where
  status : Nat
  error : Option String
  data : Option (Option Json)
  deriving DecidableEq, Repr

/-- The `POST /v0/update-one` handler: Zod validation, then one
`findOneAndUpdate` with `returnDocument: 'after'` forced over the client
options. -/
def updateOneHandler (db : DB) (req : RawUpdateOneRequest) :
    DB × UpdateOneResponse × List StoreEvent :=
  match zodUpdateOne req with
  | .error e => (db, ⟨e.status, some e.message, none⟩, [])
  | .ok p =>
    let opts := effUpdateOneOpts (toOptVals (optsFields p.options))
    match mongoFindOneAndUpdate db p.collection p.filter p.update opts with
    | .error _ =>
      (db, ⟨500, some "Internal server error", none⟩,
        [StoreEvent.fOAUCall p.collection (sessOf opts)])
    | .ok (db', data) =>
      (db', ⟨200, none, some data⟩,
        [StoreEvent.fOAUCall p.collection (sessOf opts)])

/-- The per-descriptor validity predicate the specification describes: a
descriptor is invalid exactly when its type tag is outside the closed enum
or it lacks a truthy value for a field required by its own type.  (Spec-side
definition, to be compared with the code-side validation pipeline.) -/
def rawOpInvalid (op : RawOperation) : Bool :=
  match parseOpType op.type with
  | none => true
  | some .findOneAndUpdate => !(truthy op.filter && truthy op.update)
  | some .insertOne => !truthy op.document
  | some .deleteOne => !truthy op.filter

section JsGetLemmas

variable {α : Type}

theorem jsGet_foldl_init (m : List (String × α)) (k : String) (acc : Option α) :
    m.foldl (fun acc p => if p.1 = k then some p.2 else acc) acc =
      Option.or (jsGet m k) acc := by
  induction m generalizing acc with
  | nil => simp [jsGet]
  | cons p m ih =>
    show List.foldl _ (if p.1 = k then some p.2 else acc) m = _
    rw [ih]
    show _ = Option.or (List.foldl _ (if p.1 = k then some p.2 else none) m) acc
    rw [ih]
    cases jsGet m k with
    | none =>
      by_cases h : p.1 = k <;> simp [h, Option.or]
    | some v => simp [Option.or]

theorem jsGet_cons (p : String × α) (m : List (String × α)) (k : String) :
    jsGet (p :: m) k =
      Option.or (jsGet m k) (if p.1 = k then some p.2 else none) := by
  show List.foldl _ (if p.1 = k then some p.2 else none) m = _
  rw [jsGet_foldl_init]

theorem jsGet_append (a b : List (String × α)) (k : String) :
    jsGet (a ++ b) k = Option.or (jsGet b k) (jsGet a k) := by
  show List.foldl _ none (a ++ b) = _
  rw [List.foldl_append]
  exact jsGet_foldl_init b k _

theorem jsGet_mem (m : List (String × α)) (k : String) (v : α)
    (h : jsGet m k = some v) : (k, v) ∈ m := by
  induction m with
  | nil => simp [jsGet] at h
  | cons p m ih =>
    rw [jsGet_cons] at h
    cases hm : jsGet m k with
    | some w =>
      rw [hm] at h
      simp [Option.or] at h
      subst h
      exact List.mem_cons_of_mem _ (ih hm)
    | none =>
      rw [hm] at h
      obtain ⟨p1, p2⟩ := p
      by_cases hk : p1 = k
      · subst hk
        simp [Option.or] at h
        subst h
        exact List.mem_cons_self _ _
      · simp [Option.or, hk] at h

end JsGetLemmas

theorem jsGet_toOptVals (fields : List (String × JEntry)) (k : String) :
    jsGet (toOptVals fields) k = (jsGet fields k).map OptVal.json := by
  induction fields with
  | nil => simp [jsGet, toOptVals]
  | cons p m ih =>
    show jsGet ((p.1, OptVal.json p.2) :: toOptVals m) k = _
    rw [jsGet_cons, jsGet_cons, ih]
    cases jsGet m k with
    | some v => simp [Option.or]
    | none => by_cases h : p.1 = k <;> simp [h, Option.or]

theorem sessOf_effFOAUOpts (clientOpts : EffOpts) (sid : Nat) :
    sessOf (effFOAUOpts clientOpts sid) = some sid := by
  unfold sessOf effFOAUOpts
  rw [jsGet_append]
  rfl

theorem returnDocAfter_effFOAUOpts (clientOpts : EffOpts) (sid : Nat) :
    returnDocAfter (effFOAUOpts clientOpts sid) = true := by
  unfold returnDocAfter effFOAUOpts
  rw [jsGet_append]
  rfl

theorem sessOf_effInsertOpts (clientOpts : EffOpts) (sid : Nat) :
    sessOf (effInsertOpts clientOpts sid) = some sid := by
  unfold sessOf effInsertOpts
  rw [jsGet_append]
  rfl

theorem sessOf_effDeleteOpts (clientOpts : EffOpts) (sid : Nat) :
    sessOf (effDeleteOpts clientOpts sid) = some sid := by
  unfold sessOf effDeleteOpts
  rw [jsGet_append]
  rfl

theorem returnDocAfter_effUpdateOneOpts (clientOpts : EffOpts) :
    returnDocAfter (effUpdateOneOpts clientOpts) = true := by
  unfold returnDocAfter effUpdateOneOpts
  rw [jsGet_append]
  rfl

theorem sessOf_effUpdateOneOpts (fields : List (String × JEntry)) :
    sessOf (effUpdateOneOpts (toOptVals fields)) = none := by
  unfold sessOf effUpdateOneOpts
  rw [jsGet_append, jsGet_toOptVals]
  cases h : jsGet fields "session" <;> rfl

/-- C10: the session binding cannot be overridden by the client.  In each of
the three per-operation options objects built inside the transaction loop,
the orchestrator's session is spread *after* the client-supplied options
(`{...operation.options, session}`), so looking up `session` in the
effective options always yields the orchestrator's session — for any client
options map, including one carrying its own `session` key — and for
`findOneAndUpdate` the `returnDocument` key is likewise pinned to
`'after'`. -/
theorem session_not_client_overridable (clientOpts : EffOpts) (sid : Nat) :
    jsGet (effFOAUOpts clientOpts sid) "session" = some (OptVal.sess sid)
    ∧ jsGet (effInsertOpts clientOpts sid) "session" = some (OptVal.sess sid)
    ∧ jsGet (effDeleteOpts clientOpts sid) "session" = some (OptVal.sess sid)
    ∧ jsGet (effFOAUOpts clientOpts sid) "returnDocument" =
        some (OptVal.json (JEntry.prim (JVal.str "after"))) := by
  refine ⟨?_, ?_, ?_, ?_⟩ <;>
    first
    | (unfold effFOAUOpts; rw [jsGet_append]; rfl)
    | (unfold effInsertOpts; rw [jsGet_append]; rfl)
    | (unfold effDeleteOpts; rw [jsGet_append]; rfl)

/-- C8: the options handed to `session.withTransaction` are the client's
`transactionOptions` spread over the platform default
`{readPreference: 'primary'}`: a client-supplied `readPreference` overrides
the default, and otherwise `'primary'` is used; and every batch that passes
validation opens its session and transaction with exactly these merged
options. -/
theorem transaction_options_merge :
    (∀ tf : List (String × JEntry),
      jsGet (effTxnOpts tf) "readPreference" =
        some ((jsGet tf "readPreference").getD (JEntry.prim (JVal.str "primary"))))
    ∧ ∀ (db : DB) (sid : Nat) (req : RawTxnRequest) (ops : List TxnOperation)
        (topts : Json),
        validateTransactionRequest req = .ok (ops, topts) →
        ∃ rest, (transactionHandler db sid req).2.2 =
          StoreEvent.sessionStart sid ::
            StoreEvent.txnStart (effTxnOpts (optsFields topts)) :: rest := by
  constructor
  · intro tf
    unfold effTxnOpts
    rw [jsGet_append]
    cases h : jsGet tf "readPreference" <;> rfl
  · intro db sid req ops topts hval
    have h : transactionHandler db sid req = execPhase db sid ops topts := by
      unfold transactionHandler
      rw [hval]
    rw [h]
    unfold execPhase
    rcases hex : execOps db sid ops with ⟨evs, r⟩
    rcases r with e | ⟨db', results⟩
    · exact ⟨evs ++ [StoreEvent.abort], rfl⟩
    · exact ⟨evs ++ [StoreEvent.commit], rfl⟩

/-- C9: a `POST /v0/transaction` request whose `operations` array is empty
is rejected with status 400 and the exact message "At least one operation is
required", the store state is unchanged, and the store-interaction trace is
empty. -/
theorem empty_batch_rejected (db : DB) (sid : Nat) (tf : Option Json) :
    transactionHandler db sid ⟨[], tf⟩ =
      (db, ⟨400, some "At least one operation is required", none, none⟩, []) := rfl

/-- C7 (refuted — code bug): a `POST /v0/update-one` body that omits both
`filter` and `update` is *not* rejected with 400: `UpdateOneSchema` declares
those fields `z.any()`, which Zod treats as accepting an absent key, so the
request passes schema validation, the handler issues the `findOneAndUpdate`
driver call with absent arguments, and the request fails with a generic 500
"Internal server error" after the store client has been invoked. -/
theorem updateOne_missing_fields_reach_driver (db : DB) :
    updateOneHandler db ⟨some (Json.str "users"), none, none, none⟩ =
      (db, ⟨500, some "Internal server error", none⟩,
        [StoreEvent.fOAUCall "users" none]) := rfl

/-- The required-field condition of one descriptor after Zod parsing (the
condition under which its arm of the validation `switch` does not throw). -/
def opFieldsOk (op : TxnOperation) : Bool :=
  match op.type with
  | .findOneAndUpdate => truthy op.filter && truthy op.update
  | .insertOne => truthy op.document
  | .deleteOne => truthy op.filter

theorem checkOperation_none_iff (i : Nat) (op : TxnOperation) :
    checkOperation i op = none ↔ opFieldsOk op = true := by
  unfold checkOperation opFieldsOk
  cases op.type with
  | findOneAndUpdate =>
    cases hf : truthy op.filter <;> cases hu : truthy op.update <;> simp
  | insertOne => cases hd : truthy op.document <;> simp
  | deleteOne => cases hf : truthy op.filter <;> simp

theorem checkOperation_some_status (i : Nat) (op : TxnOperation) (e : HErr)
    (h : checkOperation i op = some e) : e.status = 400 := by
  obtain ⟨ty, coll, fil, doc, upd, opts⟩ := op
  cases ty with
  | findOneAndUpdate =>
    simp only [checkOperation] at h
    by_cases hc : (!truthy fil || !truthy upd) = true
    · rw [if_pos hc] at h; cases h; rfl
    · rw [if_neg hc] at h; cases h
  | insertOne =>
    simp only [checkOperation] at h
    by_cases hc : (!truthy doc) = true
    · rw [if_pos hc] at h; cases h; rfl
    · rw [if_neg hc] at h; cases h
  | deleteOne =>
    simp only [checkOperation] at h
    by_cases hc : (!truthy fil) = true
    · rw [if_pos hc] at h; cases h; rfl
    · rw [if_neg hc] at h; cases h

theorem checkOperations_none_iff (ops : List TxnOperation) :
    ∀ i : Nat, checkOperations i ops = none ↔ ∀ op ∈ ops, opFieldsOk op = true := by
  induction ops with
  | nil => intro i; simp [checkOperations]
  | cons op rest ih =>
    intro i
    unfold checkOperations
    cases hc : checkOperation i op with
    | some e =>
      simp only [reduceCtorEq, false_iff]
      intro hall
      have := (checkOperation_none_iff i op).mpr (hall op (List.mem_cons_self _ _))
      rw [hc] at this
      cases this
    | none =>
      rw [ih (i + 1)]
      constructor
      · intro hall op' hop'
        rcases List.mem_cons.mp hop' with h | h
        · subst h; exact (checkOperation_none_iff i op').mp hc
        · exact hall op' h
      · intro hall op' hop'
        exact hall op' (List.mem_cons_of_mem _ hop')

theorem checkOperations_some_status (ops : List TxnOperation) :
    ∀ (i : Nat) (e : HErr), checkOperations i ops = some e → e.status = 400 := by
  induction ops with
  | nil => intro i e h; simp [checkOperations] at h
  | cons op rest ih =>
    intro i e h
    unfold checkOperations at h
    cases hc : checkOperation i op with
    | some e' =>
      rw [hc] at h
      cases h
      exact checkOperation_some_status i op _ hc
    | none =>
      rw [hc] at h
      exact ih (i + 1) e h

theorem zodParseOps_length (l : List RawOperation) :
    ∀ ops : List TxnOperation, zodParseOps l = some ops → ops.length = l.length := by
  induction l with
  | nil => intro ops h; cases h; rfl
  | cons op rest ih =>
    intro ops h
    unfold zodParseOps at h
    cases hz : zodParseOp op with
    | none => rw [hz] at h; cases h
    | some t =>
      rw [hz] at h
      cases hr : zodParseOps rest with
      | none => rw [hr] at h; cases h
      | some ts =>
        rw [hr] at h
        cases h
        simp [ih ts hr]

theorem zodParseOp_fieldsOk (op : RawOperation) (t : TxnOperation)
    (h : zodParseOp op = some t) : (opFieldsOk t = true ↔ rawOpInvalid op = false) := by
  unfold zodParseOp at h
  cases hpt : parseOpType op.type with
  | none => rw [hpt] at h; cases h
  | some ty =>
    rw [hpt] at h
    cases h
    unfold opFieldsOk rawOpInvalid
    rw [hpt]
    cases ty with
    | findOneAndUpdate =>
      cases hf : truthy op.filter <;> cases hu : truthy op.update <;> simp
    | insertOne => cases hd : truthy op.document <;> simp
    | deleteOne => cases hf : truthy op.filter <;> simp

theorem rawOpInvalid_of_parse_none (op : RawOperation)
    (h : parseOpType op.type = none) : rawOpInvalid op = true := by
  unfold rawOpInvalid
  rw [h]

theorem zod_check_ok_iff (l : List RawOperation) :
    ∀ i : Nat,
      (∃ ops, zodParseOps l = some ops ∧ checkOperations i ops = none) ↔
        ∀ op ∈ l, rawOpInvalid op = false := by
  induction l with
  | nil =>
    intro i
    constructor
    · intro _ op hop; cases hop
    · intro _; exact ⟨[], rfl, rfl⟩
  | cons op rest ih =>
    intro i
    constructor
    · rintro ⟨ops, hz, hc⟩ op' hop'
      unfold zodParseOps at hz
      cases hzo : zodParseOp op with
      | none => rw [hzo] at hz; cases hz
      | some t =>
        rw [hzo] at hz
        cases hzr : zodParseOps rest with
        | none => rw [hzr] at hz; cases hz
        | some ts =>
          rw [hzr] at hz
          cases hz
          unfold checkOperations at hc
          cases hct : checkOperation i t with
          | some e => rw [hct] at hc; cases hc
          | none =>
            rw [hct] at hc
            rcases List.mem_cons.mp hop' with hh | hh
            · subst hh
              exact (zodParseOp_fieldsOk op' t hzo).mp
                ((checkOperation_none_iff i t).mp hct)
            · exact (ih (i + 1)).mp ⟨ts, hzr, hc⟩ op' hh
    · intro hall
      have hop := hall op (List.mem_cons_self _ _)
      cases hpt : parseOpType op.type with
      | none =>
        rw [rawOpInvalid_of_parse_none op hpt] at hop
        cases hop
      | some ty =>
        have hzo : zodParseOp op = some
            { type := ty, collection := op.collection, filter := op.filter,
              document := op.document, update := op.update,
              options := op.options.getD (Json.obj []) } := by
          unfold zodParseOp
          rw [hpt]
          rfl
        obtain ⟨ts, hzr, hcr⟩ := (ih (i + 1)).mpr
          (fun op' hop' => hall op' (List.mem_cons_of_mem _ hop'))
        refine ⟨{ type := ty, collection := op.collection, filter := op.filter,
                  document := op.document, update := op.update,
                  options := op.options.getD (Json.obj []) } :: ts, ?_, ?_⟩
        · unfold zodParseOps
          rw [hzo, hzr]
        · unfold checkOperations
          rw [(checkOperation_none_iff i _).mpr
            ((zodParseOp_fieldsOk op _ hzo).mpr hop)]
          exact hcr

theorem validate_eq_postZod (req : RawTxnRequest) (ops : List TxnOperation)
    (hz : zodParseOps req.operations = some ops) :
    validateTransactionRequest req = validatePostZod req ops := by
  unfold validateTransactionRequest
  rw [hz]

theorem validate_eq_zodErr (req : RawTxnRequest)
    (hz : zodParseOps req.operations = none) :
    validateTransactionRequest req =
      .error ⟨400, "Validation error: " ++
        String.intercalate ", " (zodIssues 0 req.operations)⟩ := by
  unfold validateTransactionRequest
  rw [hz]

theorem validate_ok_iff (req : RawTxnRequest) (hne : req.operations ≠ []) :
    (∃ ops topts, validateTransactionRequest req = .ok (ops, topts)) ↔
      ∀ op ∈ req.operations, rawOpInvalid op = false := by
  constructor
  · rintro ⟨ops, topts, hok⟩
    cases hz : zodParseOps req.operations with
    | none =>
      rw [validate_eq_zodErr req hz] at hok
      cases hok
    | some ops' =>
      rw [validate_eq_postZod req ops' hz] at hok
      unfold validatePostZod at hok
      split at hok
      · cases hok
      · cases hc : checkOperations 0 ops' with
        | some e => rw [hc] at hok; cases hok
        | none => exact (zod_check_ok_iff req.operations 0).mp ⟨ops', hz, hc⟩
  · intro hall
    obtain ⟨ops, hz, hc⟩ := (zod_check_ok_iff req.operations 0).mpr hall
    have hlen : ops.length = req.operations.length := zodParseOps_length _ ops hz
    refine ⟨ops, req.transactionOptions.getD (Json.obj []), ?_⟩
    rw [validate_eq_postZod req ops hz]
    unfold validatePostZod
    rw [if_neg (by
      rw [hlen]
      simpa using hne)]
    rw [hc]

theorem validate_error_status (req : RawTxnRequest) (e : HErr)
    (h : validateTransactionRequest req = .error e) : e.status = 400 := by
  cases hz : zodParseOps req.operations with
  | none =>
    rw [validate_eq_zodErr req hz] at h
    cases h
    rfl
  | some ops =>
    rw [validate_eq_postZod req ops hz] at h
    unfold validatePostZod at h
    split at h
    · cases h; rfl
    · cases hc : checkOperations 0 ops with
      | some e' =>
        rw [hc] at h
        cases h
        exact checkOperations_some_status ops 0 e hc
      | none => rw [hc] at h; cases h

theorem transactionHandler_validate_error (db : DB) (sid : Nat)
    (req : RawTxnRequest) (e : HErr)
    (hval : validateTransactionRequest req = .error e) :
    transactionHandler db sid req = (db, errResponse e, []) := by
  unfold transactionHandler
  rw [hval]

theorem transactionHandler_validate_ok (db : DB) (sid : Nat)
    (req : RawTxnRequest) (ops : List TxnOperation) (topts : Json)
    (hval : validateTransactionRequest req = .ok (ops, topts)) :
    transactionHandler db sid req = execPhase db sid ops topts := by
  unfold transactionHandler
  rw [hval]

/-- C4: a transaction-batch descriptor is rejected (with a 400 validation
error) iff its type tag is outside the closed enum
`{insertOne, findOneAndUpdate, deleteOne}` or it lacks a present, truthy
value for a field required by its own type (`document` for `insertOne`,
`filter` and `update` for `findOneAndUpdate`, `filter` for `deleteOne`):
for a non-empty batch, validation succeeds iff no descriptor is invalid in
this sense — in particular a descriptor is never required to carry a field
belonging to a different type — and every validation failure has status
400. -/
theorem descriptor_validation_iff (req : RawTxnRequest)
    (hne : req.operations ≠ []) :
    ((∃ ops topts, validateTransactionRequest req = .ok (ops, topts)) ↔
      ∀ op ∈ req.operations, rawOpInvalid op = false)
    ∧ ∀ e, validateTransactionRequest req = .error e → e.status = 400 :=
  ⟨validate_ok_iff req hne, fun e he => validate_error_status req e he⟩

/-- C2: per-descriptor semantic validation happens before any store work: a
batch containing an invalid descriptor (anywhere in the list, regardless of
how many valid descriptors precede it) is rejected with a 400 error, the
store state is unchanged, and the store-interaction trace is empty — no
session is ever acquired and no store operation is issued. -/
theorem validation_precedes_execution (db : DB) (sid : Nat)
    (req : RawTxnRequest)
    (h : ∃ op ∈ req.operations, rawOpInvalid op = true) :
    ∃ e : HErr, e.status = 400 ∧
      transactionHandler db sid req = (db, errResponse e, []) := by
  cases hval : validateTransactionRequest req with
  | ok p =>
    obtain ⟨op, hop, hbad⟩ := h
    have hne : req.operations ≠ [] := by
      intro hnil
      rw [hnil] at hop
      cases hop
    have hall := (validate_ok_iff req hne).mp ⟨p.1, p.2, by rw [hval]⟩
    rw [hall op hop] at hbad
    cases hbad
  | error e =>
    exact ⟨e, validate_error_status req e hval,
      transactionHandler_validate_error db sid req e hval⟩

theorem parseOpType_name (s : String) (ty : OpType)
    (h : parseOpType s = some ty) : ty.name = s := by
  unfold parseOpType at h
  split_ifs at h with h1 h2 h3 <;> cases h <;> simp [OpType.name]
  · exact h1.symm
  · exact h2.symm
  · exact h3.symm

theorem zodParseOps_pointwise (l : List RawOperation) :
    ∀ ops : List TxnOperation, zodParseOps l = some ops →
      ops.length = l.length ∧
        ∀ (i : Nat) (hi : i < ops.length) (hj : i < l.length),
          (ops.get ⟨i, hi⟩).type.name = (l.get ⟨i, hj⟩).type ∧
          (ops.get ⟨i, hi⟩).collection = (l.get ⟨i, hj⟩).collection := by
  induction l with
  | nil =>
    intro ops h
    cases h
    exact ⟨rfl, fun i hi hj => absurd hj (by simp)⟩
  | cons op rest ih =>
    intro ops h
    unfold zodParseOps at h
    cases hzo : zodParseOp op with
    | none => rw [hzo] at h; cases h
    | some t =>
      rw [hzo] at h
      cases hzr : zodParseOps rest with
      | none => rw [hzr] at h; cases h
      | some ts =>
        rw [hzr] at h
        cases h
        obtain ⟨hlen, hpt⟩ := ih ts hzr
        have ht : t.type.name = op.type ∧ t.collection = op.collection := by
          unfold zodParseOp at hzo
          cases hpt0 : parseOpType op.type with
          | none => rw [hpt0] at hzo; cases hzo
          | some ty =>
            rw [hpt0] at hzo
            cases hzo
            exact ⟨parseOpType_name op.type ty hpt0, rfl⟩
        refine ⟨by simp [hlen], ?_⟩
        intro i hi hj
        cases i with
        | zero => exact ht
        | succ n =>
          have hn : n < ts.length := by
            simpa using Nat.lt_of_succ_lt_succ hi
          have hm : n < rest.length := by
            simpa using Nat.lt_of_succ_lt_succ hj
          simpa using hpt n hn hm

theorem execOp_ok_shape (db : DB) (sid : Nat) (op : TxnOperation)
    (evs : List StoreEvent) (db1 : DB) (r : OpResult)
    (h : execOp db sid op = (evs, .ok (db1, r))) :
    r.collection = op.collection ∧ r.opType = op.type := by
  obtain ⟨ty, coll, fil, doc, upd, opts⟩ := op
  cases ty <;> simp only [execOp] at h <;> repeat' split at h
  all_goals cases h
  all_goals exact ⟨rfl, rfl⟩

theorem execOps_ok_shape (sid : Nat) (ops : List TxnOperation) :
    ∀ (db : DB) (evs : List StoreEvent) (db' : DB) (rs : List OpResult),
      execOps db sid ops = (evs, .ok (db', rs)) →
      rs.length = ops.length ∧
        ∀ (i : Nat) (hi : i < rs.length) (hj : i < ops.length),
          (rs.get ⟨i, hi⟩).collection = (ops.get ⟨i, hj⟩).collection ∧
          (rs.get ⟨i, hi⟩).opType = (ops.get ⟨i, hj⟩).type := by
  induction ops with
  | nil =>
    intro db evs db' rs h
    simp only [execOps] at h
    cases h
    exact ⟨rfl, fun i hi hj => absurd hj (by simp)⟩
  | cons op rest ih =>
    intro db evs db' rs h
    simp only [execOps] at h
    cases hx : execOp db sid op with
    | mk evs1 r1 =>
      rw [hx] at h
      cases r1 with
      | error e => simp at h
      | ok p =>
        obtain ⟨db1, r⟩ := p
        dsimp only at h
        cases hy : execOps db1 sid rest with
        | mk evs2 r2 =>
          rw [hy] at h
          cases r2 with
          | error e => simp at h
          | ok q =>
            obtain ⟨db2, rs'⟩ := q
            cases h
            obtain ⟨hlen, hpt⟩ := ih db1 evs2 _ rs' hy
            obtain ⟨hc, ht⟩ := execOp_ok_shape db sid op evs1 db1 r hx
            refine ⟨by simp [hlen], ?_⟩
            intro i hi hj
            cases i with
            | zero => exact ⟨hc, ht⟩
            | succ n =>
              have hn : n < rs'.length := by
                simpa using Nat.lt_of_succ_lt_succ hi
              have hm : n < rest.length := by
                simpa using Nat.lt_of_succ_lt_succ hj
              simpa using hpt n hn hm

/-- C1: if any operation of a validated batch fails during execution, the
whole session-scoped transaction is rolled back — the durable store state is
exactly the pre-transaction state — a single generic error (status 500,
"Internal server error") propagates to the caller, the response carries no
result list at all (`data` and `operationCount` are absent), and the trace
shows the transaction aborting rather than committing. -/
theorem transaction_atomic_on_failure (db : DB) (sid : Nat)
    (req : RawTxnRequest) (ops : List TxnOperation) (topts : Json)
    (evs : List StoreEvent) (err : String)
    (hval : validateTransactionRequest req = .ok (ops, topts))
    (hexec : execOps db sid ops = (evs, .error err)) :
    transactionHandler db sid req =
      (db, storeErrorResponse,
        [StoreEvent.sessionStart sid,
         StoreEvent.txnStart (effTxnOpts (optsFields topts))] ++ evs ++
          [StoreEvent.abort]) := by
  rw [transactionHandler_validate_ok db sid req ops topts hval]
  unfold execPhase
  rw [hexec]

/-- C3: a validated batch that executes successfully returns HTTP 200 with
the full ordered result list: the list has exactly one result per input
descriptor, `result[i]`'s echoed type tag and collection equal the `i`-th
input descriptor's `type` and `collection` for every index, and the
response's `operationCount` equals the input batch length. -/
theorem transaction_success_shape (db : DB) (sid : Nat) (req : RawTxnRequest)
    (ops : List TxnOperation) (topts : Json) (evs : List StoreEvent)
    (db' : DB) (results : List OpResult)
    (hval : validateTransactionRequest req = .ok (ops, topts))
    (hexec : execOps db sid ops = (evs, .ok (db', results))) :
    transactionHandler db sid req =
      (db', ⟨200, none, some results, some req.operations.length⟩,
        [StoreEvent.sessionStart sid,
         StoreEvent.txnStart (effTxnOpts (optsFields topts))] ++ evs ++
          [StoreEvent.commit])
    ∧ results.length = req.operations.length
    ∧ ∀ (i : Nat) (hi : i < results.length) (hj : i < req.operations.length),
        (results.get ⟨i, hi⟩).opType.name = (req.operations.get ⟨i, hj⟩).type ∧
        (results.get ⟨i, hi⟩).collection =
          (req.operations.get ⟨i, hj⟩).collection := by
  have hz : zodParseOps req.operations = some ops := by
    cases hz0 : zodParseOps req.operations with
    | none =>
      rw [validate_eq_zodErr req hz0] at hval
      cases hval
    | some ops0 =>
      rw [validate_eq_postZod req ops0 hz0] at hval
      unfold validatePostZod at hval
      split at hval
      · cases hval
      · cases hc : checkOperations 0 ops0 with
        | some e => rw [hc] at hval; cases hval
        | none =>
          rw [hc] at hval
          cases hval
          rfl
  obtain ⟨hzlen, hzpt⟩ := zodParseOps_pointwise req.operations ops hz
  obtain ⟨hxlen, hxpt⟩ := execOps_ok_shape sid ops db evs db' results hexec
  have hlen : results.length = req.operations.length := by rw [hxlen, hzlen]
  refine ⟨?_, hlen, ?_⟩
  · rw [transactionHandler_validate_ok db sid req ops topts hval]
    unfold execPhase
    rw [hexec]
    rw [hzlen]
  · intro i hi hj
    have hio : i < ops.length := by rw [hxlen] at hi; exact hi
    obtain ⟨hc, ht⟩ := hxpt i hi hio
    obtain ⟨hn, hcc⟩ := hzpt i hio hj
    exact ⟨by rw [ht, hn], by rw [hc, hcc]⟩

theorem mongoFOAU_post_image (db : DB) (coll : String) (f u : Json)
    (opts : EffOpts) (d d' : StoredDoc)
    (hm : firstMatch f (getColl db coll) = .ok (some d))
    (ha : applyUpdate u d = .ok d')
    (hopts : returnDocAfter opts = true) :
    mongoFindOneAndUpdate db coll (some f) (some u) opts =
      .ok (setColl db coll (replaceDocById (getColl db coll) d.id d'),
           some (renderDoc d')) := by
  unfold mongoFindOneAndUpdate
  simp only [hm, ha, hopts]
  rfl

/-- C5: every `findOneAndUpdate` — both inside a transaction batch and via
`POST /v0/update-one` — returns the post-mutation image: the options spread
pins `returnDocument: 'after'` after the client options, so when the filter
matches a stored document `d` and the update produces `d'`, the single
atomic find-and-modify call stores `d'` in place of `d` and returns exactly
`renderDoc d'` (the post-image), never the pre-image `renderDoc d` and with
no separate re-read (one driver call in the trace). -/
theorem findOneAndUpdate_post_image :
    (∀ (db : DB) (sid : Nat) (op : TxnOperation) (f u : Json)
       (d d' : StoredDoc),
      op.type = OpType.findOneAndUpdate → op.filter = some f →
      op.update = some u →
      firstMatch f (getColl db op.collection) = .ok (some d) →
      applyUpdate u d = .ok d' →
      execOp db sid op =
        ([StoreEvent.fOAUCall op.collection (some sid)],
          .ok (setColl db op.collection
                 (replaceDocById (getColl db op.collection) d.id d'),
               OpResult.fOAUResult op.collection (some (renderDoc d')))))
    ∧ ∀ (db : DB) (coll : String) (f u : Json) (copts : Option Json)
        (d d' : StoredDoc),
        firstMatch f (getColl db coll) = .ok (some d) →
        applyUpdate u d = .ok d' →
        updateOneHandler db ⟨some (Json.str coll), some f, some u, copts⟩ =
          (setColl db coll (replaceDocById (getColl db coll) d.id d'),
           ⟨200, none, some (some (renderDoc d'))⟩,
           [StoreEvent.fOAUCall coll none]) := by
  constructor
  · intro db sid op f u d d' hty hf hu hm ha
    obtain ⟨ty, coll, fil, doc, upd, opts⟩ := op
    cases hty
    cases hf
    cases hu
    simp only [execOp]
    rw [mongoFOAU_post_image db coll f u _ d d' hm ha
      (returnDocAfter_effFOAUOpts _ sid)]
    rw [sessOf_effFOAUOpts]
  · intro db coll f u copts d d' hm ha
    unfold updateOneHandler
    have hzu : zodUpdateOne ⟨some (Json.str coll), some f, some u, copts⟩ =
        .ok ⟨coll, some f, some u, copts.getD (Json.obj [])⟩ := rfl
    rw [hzu]
    dsimp only
    rw [mongoFOAU_post_image db coll f u _ d d' hm ha
      (returnDocAfter_effUpdateOneOpts _)]
    rw [sessOf_effUpdateOneOpts]

theorem jsGet_none_of_keys_ne {α : Type} (m : List (String × α)) (k : String)
    (h : ∀ p ∈ m, p.1 ≠ k) : jsGet m k = none := by
  induction m with
  | nil => rfl
  | cons p m ih =>
    rw [jsGet_cons]
    rw [ih (fun q hq => h q (List.mem_cons_of_mem _ hq))]
    rw [if_neg (h p (List.mem_cons_self _ _))]
    rfl

theorem jsGet_map_replace {α : Type} (m : List (String × α)) (k : String)
    (v : α) (h : m.any (fun p => p.1 = k) = true) :
    jsGet (m.map fun p => if p.1 = k then (k, v) else p) k = some v := by
  induction m with
  | nil => cases h
  | cons p m ih =>
    rw [List.map_cons, jsGet_cons]
    by_cases hany : m.any (fun p => p.1 = k) = true
    · rw [ih hany]
      rfl
    · have hk : p.1 = k := by
        rw [List.any_cons] at h
        rcases Bool.or_eq_true_iff.mp h with hh | hh
        · exact of_decide_eq_true hh
        · exact absurd hh hany
      have hnone : jsGet (m.map fun p => if p.1 = k then (k, v) else p) k =
          none := by
        apply jsGet_none_of_keys_ne
        intro q hq
        obtain ⟨q0, hq0, hq0e⟩ := List.mem_map.mp hq
        by_cases hq1 : q0.1 = k
        · have : q0.1 = k := hq1
          rw [if_pos hq1] at hq0e
          exfalso
          apply hany
          rw [List.any_eq_true]
          exact ⟨q0, hq0, by simpa using hq1⟩
        · rw [if_neg hq1] at hq0e
          rw [← hq0e]
          exact hq1
      rw [hnone, if_pos hk]
      simp [Option.or]

theorem getColl_setColl (db : DB) (c : String) (docs : List StoredDoc) :
    getColl (setColl db c docs) c = docs := by
  unfold getColl setColl
  by_cases hany : db.colls.any (fun p => p.1 = c) = true
  · rw [if_pos hany]
    dsimp only
    rw [jsGet_map_replace db.colls c docs hany]
    rfl
  · rw [if_neg hany]
    dsimp only
    rw [jsGet_append]
    have h1 : jsGet [(c, docs)] c = some docs := by
      rw [jsGet_cons]
      simp [jsGet]
    rw [h1]
    rfl

theorem wf_getColl (db : DB) (c : String) (hwf : db.wf) :
    ∀ d ∈ getColl db c, d.id < db.nextId := by
  intro d hd
  unfold getColl at hd
  cases hj : jsGet db.colls c with
  | none => rw [hj] at hd; cases hd
  | some docs =>
    rw [hj] at hd
    exact hwf (c, docs) (jsGet_mem db.colls c docs hj) d hd

theorem find_inserted (docs : List StoredDoc) (n : Nat)
    (fields : List (String × JEntry)) (hall : ∀ d ∈ docs, d.id < n) :
    (docs ++ [StoredDoc.mk n fields]).find?
        (matchFilterFields [("_id", JEntry.prim (JVal.num (Int.ofNat n)))]) =
      some (StoredDoc.mk n fields) := by
  rw [List.find?_append]
  have h1 : docs.find?
      (matchFilterFields [("_id", JEntry.prim (JVal.num (Int.ofNat n)))]) =
        none := by
    rw [List.find?_eq_none]
    intro d hd
    have hlt := hall d hd
    simp [matchFilterFields]
    omega
  rw [h1]
  have h2 : matchFilterFields
      [("_id", JEntry.prim (JVal.num (Int.ofNat n)))]
      (StoredDoc.mk n fields) = true := by
    simp [matchFilterFields]
  rw [List.find?_cons_of_pos _ h2]
  rfl

/-- C6: an `insertOne` inside a transaction batch inserts the document and
then re-reads it by the generated identifier with the *same session* (both
trace events carry the orchestrator's session); the result record carries
the re-read document — the rendering of the document as durably stored in
the post-insert state, `_id` included — together with the generated
identifier, and that rendering is not an echo of the client's input
document. -/
theorem insertOne_reads_back (db : DB) (sid : Nat) (op : TxnOperation)
    (fields : List (String × JEntry)) (hwf : db.wf)
    (hty : op.type = OpType.insertOne)
    (hdoc : op.document = some (Json.obj fields)) :
    execOp db sid op =
      ([StoreEvent.insertCall op.collection (some sid),
        StoreEvent.findOneCall op.collection (some sid)],
        .ok (DB.mk (setColl db op.collection
                (getColl db op.collection ++
                  [StoredDoc.mk db.nextId fields])).colls (db.nextId + 1),
             OpResult.insertOneResult op.collection
               (some (renderDoc (StoredDoc.mk db.nextId fields))) db.nextId))
    ∧ renderDoc (StoredDoc.mk db.nextId fields) ≠ Json.obj fields := by
  constructor
  · obtain ⟨ty, coll, fil, doc, upd, opts⟩ := op
    cases hty
    cases hdoc
    simp only [execOp]
    have hins : mongoInsertOne db coll (some (Json.obj fields)) =
        .ok (DB.mk (setColl db coll
              (getColl db coll ++ [StoredDoc.mk db.nextId fields])).colls
            (db.nextId + 1), db.nextId) := rfl
    rw [hins]
    dsimp only
    have hread : mongoFindOne
        (DB.mk (setColl db coll
            (getColl db coll ++ [StoredDoc.mk db.nextId fields])).colls
          (db.nextId + 1)) coll
        (Json.obj [("_id", JEntry.prim (JVal.num (Int.ofNat db.nextId)))]) =
          .ok (some (renderDoc (StoredDoc.mk db.nextId fields))) := by
      have hcoll : getColl
          (DB.mk (setColl db coll
              (getColl db coll ++ [StoredDoc.mk db.nextId fields])).colls
            (db.nextId + 1)) coll =
            getColl db coll ++ [StoredDoc.mk db.nextId fields] :=
        getColl_setColl db coll _
      unfold mongoFindOne firstMatch
      dsimp only
      rw [hcoll]
      rw [find_inserted (getColl db coll) db.nextId fields
        (wf_getColl db coll hwf)]
      rfl
    rw [hread]
    rw [sessOf_effInsertOpts]
    rfl
  · unfold renderDoc
    intro h
    injection h with h'
    exact List.cons_ne_self _ _ h'

/-- Concrete fixture: a store with one `users` document
`{name: "X", value: 10}` and next generated identifier 1. -/
def wDb : DB :=
  DB.mk [("users", [StoredDoc.mk 0
    [("name", JEntry.prim (JVal.str "X")),
     ("value", JEntry.prim (JVal.num 10))]])] 1

/-- Concrete fixture: a valid `insertOne` descriptor. -/
def wOpIns : RawOperation :=
  { type := "insertOne", collection := "users",
    document := some (Json.obj [("name", JEntry.prim (JVal.str "A"))]) }

/-- Concrete fixture: a valid `deleteOne` descriptor matching nothing. -/
def wOpDel : RawOperation :=
  { type := "deleteOne", collection := "orders",
    filter := some (Json.obj [("name", JEntry.prim (JVal.str "Zz"))]) }

/-- Concrete fixture: an invalid `deleteOne` descriptor (missing filter). -/
def wOpBad : RawOperation := { type := "deleteOne", collection := "orders" }

/-- Concrete fixture: a `findOneAndUpdate` descriptor whose update uses an
operator the store rejects, so it fails during execution. -/
def wOpFail : RawOperation :=
  { type := "findOneAndUpdate", collection := "users",
    filter := some (Json.obj [("name", JEntry.prim (JVal.str "X"))]),
    update := some (Json.obj
      [("$unknown", JEntry.nestedObj [("value", JVal.num 1)])]) }

/-- The parsed form of `wOpIns`. -/
def wTxnIns : TxnOperation :=
  { type := OpType.insertOne, collection := "users", filter := none,
    document := some (Json.obj [("name", JEntry.prim (JVal.str "A"))]),
    update := none, options := Json.obj [] }

/-- The parsed form of `wOpFail`. -/
def wTxnFail : TxnOperation :=
  { type := OpType.findOneAndUpdate, collection := "users",
    filter := some (Json.obj [("name", JEntry.prim (JVal.str "X"))]),
    document := none,
    update := some (Json.obj
      [("$unknown", JEntry.nestedObj [("value", JVal.num 1)])]),
    options := Json.obj [] }

/-- The parsed form of `wOpDel`. -/
def wTxnDel : TxnOperation :=
  { type := OpType.deleteOne, collection := "orders",
    filter := some (Json.obj [("name", JEntry.prim (JVal.str "Zz"))]),
    document := none, update := none, options := Json.obj [] }

/-- Witness for the atomicity theorem: the concrete batch
`[wOpIns, wOpFail]` validates, its second operation fails during execution,
and the handler leaves the store untouched and returns the single 500
error with no result list. -/
theorem transaction_atomic_on_failure_witness :
    validateTransactionRequest ⟨[wOpIns, wOpFail], none⟩ =
      .ok ([wTxnIns, wTxnFail], Json.obj [])
    ∧ execOps wDb 7 [wTxnIns, wTxnFail] =
        ([StoreEvent.insertCall "users" (some 7),
          StoreEvent.findOneCall "users" (some 7),
          StoreEvent.fOAUCall "users" (some 7)],
          .error "Unsupported update operator")
    ∧ transactionHandler wDb 7 ⟨[wOpIns, wOpFail], none⟩ =
        (wDb, storeErrorResponse,
          [StoreEvent.sessionStart 7,
           StoreEvent.txnStart (effTxnOpts (optsFields (Json.obj [])))] ++
            [StoreEvent.insertCall "users" (some 7),
             StoreEvent.findOneCall "users" (some 7),
             StoreEvent.fOAUCall "users" (some 7)] ++ [StoreEvent.abort]) :=
  ⟨rfl, rfl,
    transaction_atomic_on_failure wDb 7 ⟨[wOpIns, wOpFail], none⟩
      [wTxnIns, wTxnFail] (Json.obj [])
      [StoreEvent.insertCall "users" (some 7),
       StoreEvent.findOneCall "users" (some 7),
       StoreEvent.fOAUCall "users" (some 7)]
      "Unsupported update operator" rfl rfl⟩

/-- Witness for the validation-precedes-execution theorem: the concrete
batch `[wOpIns, wOpBad]` (second descriptor missing its required filter) is
rejected with a 400 error, the store is untouched and the trace is empty. -/
theorem validation_precedes_execution_witness :
    ∃ e : HErr, e.status = 400 ∧
      transactionHandler wDb 7 ⟨[wOpIns, wOpBad], none⟩ =
        (wDb, errResponse e, []) :=
  validation_precedes_execution wDb 7 ⟨[wOpIns, wOpBad], none⟩
    ⟨wOpBad, by decide, by decide⟩

/-- The store state after the successful concrete batch `[wOpIns, wOpDel]`. -/
def wDbOk : DB :=
  DB.mk [("users", [StoredDoc.mk 0
    [("name", JEntry.prim (JVal.str "X")),
     ("value", JEntry.prim (JVal.num 10))],
    StoredDoc.mk 1 [("name", JEntry.prim (JVal.str "A"))]])] 2

/-- The result list of the successful concrete batch `[wOpIns, wOpDel]`. -/
def wResultsOk : List OpResult :=
  [OpResult.insertOneResult "users"
    (some (Json.obj [("_id", JEntry.prim (JVal.num 1)),
                     ("name", JEntry.prim (JVal.str "A"))])) 1,
   OpResult.deleteOneResult "orders" 0]

/-- Witness for the success-shape theorem: the concrete batch
`[wOpIns, wOpDel]` validates, executes successfully, and the handler
returns 200 with the two results in input order and operation count 2. -/
theorem transaction_success_shape_witness :
    transactionHandler wDb 7 ⟨[wOpIns, wOpDel], none⟩ =
      (wDbOk, ⟨200, none, some wResultsOk,
        some (⟨[wOpIns, wOpDel], none⟩ : RawTxnRequest).operations.length⟩,
        [StoreEvent.sessionStart 7,
         StoreEvent.txnStart (effTxnOpts (optsFields (Json.obj [])))] ++
          [StoreEvent.insertCall "users" (some 7),
           StoreEvent.findOneCall "users" (some 7),
           StoreEvent.deleteCall "orders" (some 7)] ++ [StoreEvent.commit])
    ∧ wResultsOk.length =
        (⟨[wOpIns, wOpDel], none⟩ : RawTxnRequest).operations.length
    ∧ ∀ (i : Nat) (hi : i < wResultsOk.length)
        (hj : i < (⟨[wOpIns, wOpDel], none⟩ : RawTxnRequest).operations.length),
        (wResultsOk.get ⟨i, hi⟩).opType.name =
          ((⟨[wOpIns, wOpDel], none⟩ : RawTxnRequest).operations.get
            ⟨i, hj⟩).type ∧
        (wResultsOk.get ⟨i, hi⟩).collection =
          ((⟨[wOpIns, wOpDel], none⟩ : RawTxnRequest).operations.get
            ⟨i, hj⟩).collection :=
  transaction_success_shape wDb 7 ⟨[wOpIns, wOpDel], none⟩
    [wTxnIns, wTxnDel] (Json.obj [])
    [StoreEvent.insertCall "users" (some 7),
     StoreEvent.findOneCall "users" (some 7),
     StoreEvent.deleteCall "orders" (some 7)]
    wDbOk wResultsOk rfl rfl

/-- Witness for the descriptor-validation theorem, at the concrete singleton
batch `[wOpIns]`. -/
theorem descriptor_validation_iff_witness :
    ((∃ ops topts,
        validateTransactionRequest ⟨[wOpIns], none⟩ = .ok (ops, topts)) ↔
      ∀ op ∈ (⟨[wOpIns], none⟩ : RawTxnRequest).operations,
        rawOpInvalid op = false)
    ∧ ∀ e, validateTransactionRequest ⟨[wOpIns], none⟩ = .error e →
        e.status = 400 :=
  descriptor_validation_iff ⟨[wOpIns], none⟩ (by decide)

/-- The `users` document `{name: "X", value: 10}` as stored in `wDb`. -/
def wDocX : StoredDoc :=
  StoredDoc.mk 0 [("name", JEntry.prim (JVal.str "X")),
                  ("value", JEntry.prim (JVal.num 10))]

/-- `wDocX` after `{$inc: {value: 5}}`. -/
def wDocX15 : StoredDoc :=
  StoredDoc.mk 0 [("name", JEntry.prim (JVal.str "X")),
                  ("value", JEntry.prim (JVal.num 15))]

/-- The equality filter `{name: "X"}`. -/
def wFilterX : Json := Json.obj [("name", JEntry.prim (JVal.str "X"))]

/-- The update `{$inc: {value: 5}}`. -/
def wIncUpd : Json :=
  Json.obj [("$inc", JEntry.nestedObj [("value", JVal.num 5)])]

/-- A parsed transaction `findOneAndUpdate` whose client options even try to
request the pre-image (`returnDocument: 'before'`). -/
def wTxnP3 : TxnOperation :=
  { type := OpType.findOneAndUpdate, collection := "users",
    filter := some wFilterX, document := none, update := some wIncUpd,
    options := Json.obj [("returnDocument", JEntry.prim (JVal.str "before"))] }

/-- Witness for the post-image theorem: incrementing `value` by 5 on
`{name: "X", value: 10}` returns the post-image with `value: 15` — in the
transaction loop and through `POST /v0/update-one`, both with client
options requesting the pre-image. -/
theorem findOneAndUpdate_post_image_witness :
    execOp wDb 7 wTxnP3 =
      ([StoreEvent.fOAUCall "users" (some 7)],
        .ok (setColl wDb "users"
               (replaceDocById (getColl wDb "users") wDocX.id wDocX15),
             OpResult.fOAUResult "users" (some (renderDoc wDocX15))))
    ∧ updateOneHandler wDb
        ⟨some (Json.str "users"), some wFilterX, some wIncUpd,
         some (Json.obj
           [("returnDocument", JEntry.prim (JVal.str "before"))])⟩ =
        (setColl wDb "users"
           (replaceDocById (getColl wDb "users") wDocX.id wDocX15),
         ⟨200, none, some (some (renderDoc wDocX15))⟩,
         [StoreEvent.fOAUCall "users" none]) :=
  ⟨findOneAndUpdate_post_image.1 wDb 7 wTxnP3 wFilterX wIncUpd wDocX wDocX15
      rfl rfl rfl rfl rfl,
   findOneAndUpdate_post_image.2 wDb "users" wFilterX wIncUpd
      (some (Json.obj [("returnDocument", JEntry.prim (JVal.str "before"))]))
      wDocX wDocX15 rfl rfl⟩

/-- Witness for the insert read-back theorem, inserting `{name: "A"}` into
the concrete store `wDb`. -/
theorem insertOne_reads_back_witness :
    execOp wDb 7 wTxnIns =
      ([StoreEvent.insertCall "users" (some 7),
        StoreEvent.findOneCall "users" (some 7)],
        .ok (DB.mk (setColl wDb "users"
                (getColl wDb "users" ++
                  [StoredDoc.mk wDb.nextId
                    [("name", JEntry.prim (JVal.str "A"))]])).colls
              (wDb.nextId + 1),
             OpResult.insertOneResult "users"
               (some (renderDoc (StoredDoc.mk wDb.nextId
                 [("name", JEntry.prim (JVal.str "A"))]))) wDb.nextId))
    ∧ renderDoc (StoredDoc.mk wDb.nextId
        [("name", JEntry.prim (JVal.str "A"))]) ≠
        Json.obj [("name", JEntry.prim (JVal.str "A"))] :=
  insertOne_reads_back wDb 7 wTxnIns
    [("name", JEntry.prim (JVal.str "A"))] (by decide) rfl rfl

/-- Witness for the transaction-options merge theorem: a client
`readPreference` overrides the platform default, and the validated
singleton batch `[wOpIns]` opens its transaction with the merged options. -/
theorem transaction_options_merge_witness :
    jsGet (effTxnOpts [("readPreference", JEntry.prim (JVal.str "secondary"))])
        "readPreference" =
      some ((jsGet [("readPreference", JEntry.prim (JVal.str "secondary"))]
        "readPreference").getD (JEntry.prim (JVal.str "primary")))
    ∧ ∃ rest, (transactionHandler wDb 7 ⟨[wOpIns], none⟩).2.2 =
        StoreEvent.sessionStart 7 ::
          StoreEvent.txnStart (effTxnOpts (optsFields (Json.obj []))) :: rest :=
  ⟨transaction_options_merge.1
      [("readPreference", JEntry.prim (JVal.str "secondary"))],
   transaction_options_merge.2 wDb 7 ⟨[wOpIns], none⟩ [wTxnIns]
      (Json.obj []) rfl⟩

end Wrongo
